import Mathlib

/-
Verification of the Search Space model described by the repository's
`tutorials/tune/search_space.ipynb` notebook and its accompanying design
specification.  The repository ships only tutorial notebooks; the `tune`
library they exercise is external, so the data model and operations below
are modelled from the specification text, cross-checked against the
concrete enumeration outputs recorded in the notebook cells.
-/

namespace SearchSpace

/-- Modelled from the spec: a concrete parameter value appearing in a
configuration.  The notebook uses numbers (ints and random floats, modelled
here as rationals) and strings. -/
inductive Value where
  | num (q : ℚ)
  | str (s : String)
deriving DecidableEq

/-- Modelled from the spec: a stochastic expression (Rand / RandInt /
Choice), drawn rather than enumerated.  `Rand` carries `low`, `high`, an
optional quantization step `q`, a log-scale flag and `include_high`;
`RandInt` carries integer bounds and `include_high`; `Choice` carries its
ordered options.  The log-scale transform needs transcendental reals and is
left as a flag only; no property below depends on it. -/
inductive StochExpr where
  | rand (low high : ℚ) (q : Option ℚ) (logScale : Bool) (includeHigh : Bool)
  | randInt (low high : Int) (includeHigh : Bool)
  | choice (options : List Value)
deriving DecidableEq

/-- Modelled from the spec: a single-parameter value descriptor: a Constant,
a Grid of enumerated required values, or a Stochastic expression. -/
inductive Dim where
  | const (v : Value)
  | grid (values : List Value)
  | stoch (e : StochExpr)
deriving DecidableEq

/-- Modelled from the spec: a Space is an ordered mapping from parameter
name to expression (keyword declaration order is preserved). -/
structure Space where
  dims : List (String × Dim)
deriving DecidableEq

/-- Modelled from the spec: a configuration entry is either a resolved
concrete value or the unresolved stochastic placeholder carrying its
defining parameters. -/
inductive ConfigValue where
  | resolved (v : Value)
  | unresolved (e : StochExpr)
deriving DecidableEq

/-- A Configuration: an ordered mapping from parameter name to value. -/
abbrev Config := List (String × ConfigValue)

/-- Modelled from the spec: construction-time error taxonomy
(`InvalidRangeError`, `EmptyChoiceError`). -/
inductive SpaceError where
  | invalidRange
  | emptyChoice
deriving DecidableEq

/-- Modelled from the spec: the `Rand` constructor; `low > high` fails with
`InvalidRangeError` before any configuration is produced. -/
def mkRand (low high : ℚ) (q : Option ℚ) (logScale includeHigh : Bool) :
    Except SpaceError StochExpr :=
  if high < low then Except.error SpaceError.invalidRange
  else Except.ok (StochExpr.rand low high q logScale includeHigh)

/-- Modelled from the spec: the `RandInt` constructor; `low > high` fails
with `InvalidRangeError`. -/
def mkRandInt (low high : Int) (includeHigh : Bool) :
    Except SpaceError StochExpr :=
  if high < low then Except.error SpaceError.invalidRange
  else Except.ok (StochExpr.randInt low high includeHigh)

/-- Modelled from the spec: the `Choice` constructor; an empty option
sequence fails with `EmptyChoiceError`. -/
def mkChoice (options : List Value) : Except SpaceError StochExpr :=
  if options.isEmpty then Except.error SpaceError.emptyChoice
  else Except.ok (StochExpr.choice options)

/-- Modelled from the spec: one step of the seeded deterministic
pseudo-random generator (a linear congruential generator stands in for the
external library's generator; every property below depends only on its
determinism as a function of the seed). -/
def lcgNext (s : Nat) : Nat := (s * 1103515245 + 12345) % 2147483648

/-- Modelled from the spec: the raw generator stream opened fresh from
`seed` by one `sample()` call; `rawAt seed p` is the `p`-th raw draw of
that stream.  It depends on nothing but `seed` and `p`: no state is reused
from any previous call. -/
def rawAt (seed : Nat) : Nat → Nat
  | 0 => lcgNext seed
  | p + 1 => lcgNext (rawAt seed p)

/-- Modelled from the spec: drawing one concrete value from a stochastic
expression given one raw generator output.  `Rand` maps the raw draw
uniformly into `[low, high]` (the upper bound attainable only when
`include_high`), then quantizes to the nearest multiple of `q` when set;
`RandInt` draws over the integer range with inclusive upper bound
controlled by `include_high`; `Choice` returns the selected option value
itself, not an index. -/
def drawValue (e : StochExpr) (r : Nat) : Value :=
  match e with
  | StochExpr.rand low high q _ includeHigh =>
    let denom : ℚ := if includeHigh then 1000 else 1001
    let x : ℚ := low + (high - low) * (((r % 1001 : Nat) : ℚ) / denom)
    match q with
    | none => Value.num x
    | some step => Value.num (low + step * ((Rat.floor ((x - low) / step + 1/2) : Int) : ℚ))
  | StochExpr.randInt low high includeHigh =>
    let span : Nat := (high - low).toNat + (if includeHigh then 1 else 0)
    Value.num (((low + ((r % span : Nat) : Int)) : Int) : ℚ)
  | StochExpr.choice options => options.getD (r % options.length) (Value.num 0)

/-- Modelled from the spec: enumeration of a dimension list into the ordered
sequence of configurations: the cross-product over Grid dimensions in
declaration order, first-declared dimension as the outermost loop
(last-declared varying fastest); Constants are copied into every
configuration; unresolved Stochastic dimensions are copied through as
placeholders, one configuration per Grid cross-product point. -/
def expandDims : List (String × Dim) → List Config
  | [] => [[]]
  | (name, Dim.const v) :: rest =>
      (expandDims rest).map (fun c => (name, ConfigValue.resolved v) :: c)
  | (name, Dim.grid vs) :: rest =>
      vs.flatMap (fun v => (expandDims rest).map (fun c => (name, ConfigValue.resolved v) :: c))
  | (name, Dim.stoch e) :: rest =>
      (expandDims rest).map (fun c => (name, ConfigValue.unresolved e) :: c)

/-- Enumerating a Space: the read-only expansion into configurations. -/
def Space.expand (s : Space) : List Config := expandDims s.dims

/-- Modelled from the spec: resolving every stochastic dimension at draw
index `i` out of `n`.  The `j`-th stochastic dimension (in declaration
order) takes its `n` draws from consecutive stream positions
`j * n, …, j * n + n - 1`; at draw index `i` it becomes the Constant
`drawValue e (rawAt seed (j * n + i))`, so draw index `i` of every
stochastic dimension lands in the same configuration branch. -/
def resolveDims (seed n i : Nat) : List (String × Dim) → Nat → List (String × Dim)
  | [], _ => []
  | (name, Dim.stoch e) :: rest, j =>
      (name, Dim.const (drawValue e (rawAt seed (j * n + i)))) :: resolveDims seed n i rest (j + 1)
  | (name, Dim.const v) :: rest, j =>
      (name, Dim.const v) :: resolveDims seed n i rest j
  | (name, Dim.grid vs) :: rest, j =>
      (name, Dim.grid vs) :: resolveDims seed n i rest j

/-- Modelled from the spec and the notebook's recorded outputs:
`space.sample(n, seed)` enumerated.  The `n` joint draws of all stochastic
dimensions form one synthetic size-`n` dimension cross-producted with the
true Grid dimensions; per the notebook's recorded enumeration the draw
index is the outermost (slowest-varying) loop and the Grid dimensions are
the inner loops. -/
def Space.sampleExpand (s : Space) (n seed : Nat) : List Config :=
  (List.range n).flatMap (fun i => expandDims (resolveDims seed n i s.dims 0))

/-- Modelled from the spec: one branch of a Space union: either a plain
Space or a sampled one. -/
inductive Branch where
  | plain (s : Space)
  | sampled (s : Space) (n seed : Nat)

/-- Enumeration of one union branch. -/
def Branch.expand : Branch → List Config
  | Branch.plain s => s.expand
  | Branch.sampled s n seed => s.sampleExpand n seed

/-- Modelled from the spec: `space1 + space2 + …` enumerates to the
concatenation (not cross-product) of the branches' expansions. -/
def unionExpand (branches : List Branch) : List Config :=
  branches.flatMap Branch.expand

/-- Number of enumeration branches contributed by one dimension. -/
def dimSize : Dim → Nat
  | Dim.const _ => 1
  | Dim.grid vs => vs.length
  | Dim.stoch _ => 1

/-- Total number of Grid cross-product points of a dimension list. -/
def spaceSize (dims : List (String × Dim)) : Nat :=
  (dims.map (fun p => dimSize p.2)).prod

/-- Whether a dimension is a stochastic expression. -/
def Dim.isStoch : Dim → Bool
  | Dim.stoch _ => true
  | _ => false

/-- Whether a dimension is a Constant. -/
def Dim.isConst : Dim → Bool
  | Dim.const _ => true
  | _ => false

/-- Whether a dimension is a Grid. -/
def Dim.isGrid : Dim → Bool
  | Dim.grid _ => true
  | _ => false

/-- The value of a Constant dimension (defaulting elsewhere). -/
def Dim.constValD : Dim → Value
  | Dim.const v => v
  | _ => Value.num 0

/-- The product of the value counts of the Grid dimensions only. -/
def gridProduct (dims : List (String × Dim)) : Nat :=
  ((dims.filter (fun p => p.2.isGrid)).map (fun p => dimSize p.2)).prod

/-- The notebook's `Space(a=1, b=Grid(2,3), c=Grid("a","b"))`. -/
def spaceGrid23 : Space :=
  ⟨[("a", Dim.const (Value.num 1)), ("b", Dim.grid [Value.num 2, Value.num 3]),
    ("c", Dim.grid [Value.str "a", Value.str "b"])]⟩

/-- The notebook's `Rand(0,1)` with its default arguments. -/
def rand01 : StochExpr := StochExpr.rand 0 1 none false true

/-- The notebook's `Choice("a","b")`. -/
def choiceAB : StochExpr := StochExpr.choice [Value.str "a", Value.str "b"]

/-- The notebook's `Space(a=1, b=Rand(0,1), c=Choice("a","b"))`. -/
def spaceRandChoice : Space :=
  ⟨[("a", Dim.const (Value.num 1)), ("b", Dim.stoch rand01), ("c", Dim.stoch choiceAB)]⟩

/-- The same Space declared a second time, literally, as the notebook's later
cell re-declares it before enumerating again. -/
def spaceRandChoiceAgain : Space :=
  ⟨[("a", Dim.const (Value.num 1)),
    ("b", Dim.stoch (StochExpr.rand 0 1 none false true)),
    ("c", Dim.stoch (StochExpr.choice [Value.str "a", Value.str "b"]))]⟩

/-- The notebook's `Space(a=1, b=Grid(1,2), c=Rand(0,1))`. -/
def spaceGridRand : Space :=
  ⟨[("a", Dim.const (Value.num 1)), ("b", Dim.grid [Value.num 1, Value.num 2]),
    ("c", Dim.stoch rand01)]⟩

/-- The notebook's `space1 = Space(model="model1", a=1, b=Grid(2,3))`. -/
def space1 : Space :=
  ⟨[("model", Dim.const (Value.str "model1")), ("a", Dim.const (Value.num 1)),
    ("b", Dim.grid [Value.num 2, Value.num 3])]⟩

/-- The notebook's `space2 = Space(model="model2", x=Rand(3,4))`, to be
sampled with `n = 2`. -/
def space2 : Space :=
  ⟨[("model", Dim.const (Value.str "model2")),
    ("x", Dim.stoch (StochExpr.rand 3 4 none false true))]⟩

/-- The notebook's `space3 = Space(model="model3", y=Rand(3,4))`. -/
def space3 : Space :=
  ⟨[("model", Dim.const (Value.str "model3")),
    ("y", Dim.stoch (StochExpr.rand 3 4 none false true))]⟩

/-- The notebook's static `Space(a=1, b=2)`. -/
def spaceStatic : Space :=
  ⟨[("a", Dim.const (Value.num 1)), ("b", Dim.const (Value.num 2))]⟩

/-- The single configuration the notebook records for the unsampled
`Space(a=1, b=Rand(0,1), c=Choice("a","b"))`. -/
def cfgRC : Config :=
  [("a", ConfigValue.resolved (Value.num 1)),
   ("b", ConfigValue.unresolved rand01),
   ("c", ConfigValue.unresolved choiceAB)]

/-- The first configuration of the sampled `Space(a=1, b=Grid(1,2), c=Rand(0,1))`:
draw index 0 with `b = 1`. -/
def cfgGR0 : Config :=
  [("a", ConfigValue.resolved (Value.num 1)),
   ("b", ConfigValue.resolved (Value.num 1)),
   ("c", ConfigValue.resolved (drawValue rand01 (rawAt 7 0)))]

/-- The first configuration of `Space(a=1, b=Grid(2,3), c=Grid("a","b"))`. -/
def cfg23a : Config :=
  [("a", ConfigValue.resolved (Value.num 1)),
   ("b", ConfigValue.resolved (Value.num 2)),
   ("c", ConfigValue.resolved (Value.str "a"))]


theorem length_flatMap_const {α β : Type} (l : List α) (g : α → List β) (k : Nat)
    (h : ∀ a, (g a).length = k) : (l.flatMap g).length = l.length * k := by
  induction l with
  | nil => simp
  | cons a t ih => simp [h, ih, Nat.succ_mul, Nat.add_comm]

theorem spaceSize_cons (p : String × Dim) (rest : List (String × Dim)) :
    spaceSize (p :: rest) = dimSize p.2 * spaceSize rest := by
  simp [spaceSize]

theorem length_expandDims (dims : List (String × Dim)) :
    (expandDims dims).length = spaceSize dims := by
  induction dims with
  | nil => simp [expandDims, spaceSize]
  | cons p rest ih =>
    obtain ⟨name, d⟩ := p
    cases d with
    | const v => simp [expandDims, spaceSize_cons, dimSize, ih]
    | grid vs =>
      rw [spaceSize_cons]
      show (vs.flatMap _).length = _
      rw [length_flatMap_const _ _ (spaceSize rest) (fun v => by simp [ih])]
      rfl
    | stoch e => simp [expandDims, spaceSize_cons, dimSize, ih]

theorem keys_of_mem_expandDims {dims : List (String × Dim)} {c : Config}
    (h : c ∈ expandDims dims) : c.map Prod.fst = dims.map Prod.fst := by
  induction dims generalizing c with
  | nil =>
    simp [expandDims] at h
    subst h
    simp
  | cons p rest ih =>
    obtain ⟨name, d⟩ := p
    cases d with
    | const v =>
      simp only [expandDims, List.mem_map] at h
      obtain ⟨c0, hc0, rfl⟩ := h
      simp [ih hc0]
    | grid vs =>
      simp only [expandDims, List.mem_flatMap, List.mem_map] at h
      obtain ⟨v, hv, c0, hc0, rfl⟩ := h
      simp [ih hc0]
    | stoch e =>
      simp only [expandDims, List.mem_map] at h
      obtain ⟨c0, hc0, rfl⟩ := h
      simp [ih hc0]


theorem mem_expandDims_const {dims : List (String × Dim)} {c : Config}
    (h : c ∈ expandDims dims) {name : String} {v : Value}
    (hd : (name, Dim.const v) ∈ dims) : (name, ConfigValue.resolved v) ∈ c := by
  induction dims generalizing c with
  | nil => simp at hd
  | cons p rest ih =>
    obtain ⟨n0, d0⟩ := p
    cases d0 with
    | const v0 =>
      simp only [expandDims, List.mem_map] at h
      obtain ⟨c0, hc0, rfl⟩ := h
      rcases List.mem_cons.mp hd with heq | htail
      · simp only [Prod.mk.injEq, Dim.const.injEq] at heq
        obtain ⟨rfl, rfl⟩ := heq
        exact List.mem_cons_self _ _
      · exact List.mem_cons_of_mem _ (ih hc0 htail)
    | grid vs0 =>
      simp only [expandDims, List.mem_flatMap, List.mem_map] at h
      obtain ⟨v0, hv0, c0, hc0, rfl⟩ := h
      rcases List.mem_cons.mp hd with heq | htail
      · simp at heq
      · exact List.mem_cons_of_mem _ (ih hc0 htail)
    | stoch e0 =>
      simp only [expandDims, List.mem_map] at h
      obtain ⟨c0, hc0, rfl⟩ := h
      rcases List.mem_cons.mp hd with heq | htail
      · simp at heq
      · exact List.mem_cons_of_mem _ (ih hc0 htail)

theorem mem_expandDims_stoch {dims : List (String × Dim)} {c : Config}
    (h : c ∈ expandDims dims) {name : String} {e : StochExpr}
    (hd : (name, Dim.stoch e) ∈ dims) : (name, ConfigValue.unresolved e) ∈ c := by
  induction dims generalizing c with
  | nil => simp at hd
  | cons p rest ih =>
    obtain ⟨n0, d0⟩ := p
    cases d0 with
    | const v0 =>
      simp only [expandDims, List.mem_map] at h
      obtain ⟨c0, hc0, rfl⟩ := h
      rcases List.mem_cons.mp hd with heq | htail
      · simp at heq
      · exact List.mem_cons_of_mem _ (ih hc0 htail)
    | grid vs0 =>
      simp only [expandDims, List.mem_flatMap, List.mem_map] at h
      obtain ⟨v0, hv0, c0, hc0, rfl⟩ := h
      rcases List.mem_cons.mp hd with heq | htail
      · simp at heq
      · exact List.mem_cons_of_mem _ (ih hc0 htail)
    | stoch e0 =>
      simp only [expandDims, List.mem_map] at h
      obtain ⟨c0, hc0, rfl⟩ := h
      rcases List.mem_cons.mp hd with heq | htail
      · simp only [Prod.mk.injEq, Dim.stoch.injEq] at heq
        obtain ⟨rfl, rfl⟩ := heq
        exact List.mem_cons_self _ _
      · exact List.mem_cons_of_mem _ (ih hc0 htail)

theorem expandDims_exists_mem {dims : List (String × Dim)}
    (h : spaceSize dims ≠ 0) : ∃ c, c ∈ expandDims dims := by
  apply List.exists_mem_of_length_pos
  rw [length_expandDims]
  exact Nat.pos_of_ne_zero h

theorem expandDims_grid_cover {dims : List (String × Dim)} {name : String}
    {vs : List Value} (hd : (name, Dim.grid vs) ∈ dims) {v : Value} (hv : v ∈ vs)
    (hsz : spaceSize dims ≠ 0) :
    ∃ c, c ∈ expandDims dims ∧ (name, ConfigValue.resolved v) ∈ c := by
  induction dims with
  | nil => simp at hd
  | cons p rest ih =>
    obtain ⟨n0, d0⟩ := p
    rw [spaceSize_cons] at hsz
    have hdim : dimSize d0 ≠ 0 := fun h0 => hsz (by rw [h0, Nat.zero_mul])
    have hrest : spaceSize rest ≠ 0 := fun h0 => hsz (by rw [h0, Nat.mul_zero])
    rcases List.mem_cons.mp hd with heq | htail
    · obtain ⟨rfl, rfl⟩ : name = n0 ∧ Dim.grid vs = d0 := by
        simpa [Prod.mk.injEq, eq_comm] using heq
      obtain ⟨c0, hc0⟩ := expandDims_exists_mem hrest
      refine ⟨(name, ConfigValue.resolved v) :: c0, ?_, List.mem_cons_self _ _⟩
      simp only [expandDims, List.mem_flatMap, List.mem_map]
      exact ⟨v, hv, c0, hc0, rfl⟩
    · obtain ⟨c0, hc0, hin⟩ := ih htail hrest
      cases d0 with
      | const v0 =>
        refine ⟨(n0, ConfigValue.resolved v0) :: c0, ?_, List.mem_cons_of_mem _ hin⟩
        simp only [expandDims, List.mem_map]
        exact ⟨c0, hc0, rfl⟩
      | grid vs0 =>
        have hne : vs0 ≠ [] := by
          intro h0
          rw [h0] at hdim
          exact hdim rfl
        obtain ⟨v0, hv0⟩ := List.exists_mem_of_ne_nil vs0 hne
        refine ⟨(n0, ConfigValue.resolved v0) :: c0, ?_, List.mem_cons_of_mem _ hin⟩
        simp only [expandDims, List.mem_flatMap, List.mem_map]
        exact ⟨v0, hv0, c0, hc0, rfl⟩
      | stoch e0 =>
        refine ⟨(n0, ConfigValue.unresolved e0) :: c0, ?_, List.mem_cons_of_mem _ hin⟩
        simp only [expandDims, List.mem_map]
        exact ⟨c0, hc0, rfl⟩


theorem resolveDims_map_fst (seed n i : Nat) (dims : List (String × Dim)) (j : Nat) :
    (resolveDims seed n i dims j).map Prod.fst = dims.map Prod.fst := by
  induction dims generalizing j with
  | nil => simp [resolveDims]
  | cons p rest ih =>
    obtain ⟨n0, d0⟩ := p
    cases d0 <;> simp [resolveDims, ih]

theorem spaceSize_resolveDims (seed n i : Nat) (dims : List (String × Dim)) (j : Nat) :
    spaceSize (resolveDims seed n i dims j) = spaceSize dims := by
  induction dims generalizing j with
  | nil => rfl
  | cons p rest ih =>
    obtain ⟨n0, d0⟩ := p
    cases d0 <;> simp [resolveDims, spaceSize_cons, dimSize, ih]

theorem resolveDims_const_mem {dims : List (String × Dim)} {name : String} {v : Value}
    (h : (name, Dim.const v) ∈ dims) (seed n i j : Nat) :
    (name, Dim.const v) ∈ resolveDims seed n i dims j := by
  induction dims generalizing j with
  | nil => simp at h
  | cons p rest ih =>
    obtain ⟨n0, d0⟩ := p
    cases d0 with
    | const v0 =>
      rcases List.mem_cons.mp h with heq | ht
      · simp only [Prod.mk.injEq, Dim.const.injEq] at heq
        obtain ⟨rfl, rfl⟩ := heq
        exact List.mem_cons_self _ _
      · exact List.mem_cons_of_mem _ (ih ht _)
    | grid vs0 =>
      rcases List.mem_cons.mp h with heq | ht
      · simp at heq
      · exact List.mem_cons_of_mem _ (ih ht _)
    | stoch e0 =>
      rcases List.mem_cons.mp h with heq | ht
      · simp at heq
      · exact List.mem_cons_of_mem _ (ih ht _)

theorem resolveDims_grid_mem {dims : List (String × Dim)} {name : String} {vs : List Value}
    (h : (name, Dim.grid vs) ∈ dims) (seed n i j : Nat) :
    (name, Dim.grid vs) ∈ resolveDims seed n i dims j := by
  induction dims generalizing j with
  | nil => simp at h
  | cons p rest ih =>
    obtain ⟨n0, d0⟩ := p
    cases d0 with
    | const v0 =>
      rcases List.mem_cons.mp h with heq | ht
      · simp at heq
      · exact List.mem_cons_of_mem _ (ih ht _)
    | grid vs0 =>
      rcases List.mem_cons.mp h with heq | ht
      · simp only [Prod.mk.injEq, Dim.grid.injEq] at heq
        obtain ⟨rfl, rfl⟩ := heq
        exact List.mem_cons_self _ _
      · exact List.mem_cons_of_mem _ (ih ht _)
    | stoch e0 =>
      rcases List.mem_cons.mp h with heq | ht
      · simp at heq
      · exact List.mem_cons_of_mem _ (ih ht _)

theorem resolveDims_stoch_mem {dims : List (String × Dim)} {name : String} {e : StochExpr}
    (h : (name, Dim.stoch e) ∈ dims) (seed n i j : Nat) :
    ∃ k, (name, Dim.const (drawValue e (rawAt seed (k * n + i)))) ∈
      resolveDims seed n i dims j := by
  induction dims generalizing j with
  | nil => simp at h
  | cons p rest ih =>
    obtain ⟨n0, d0⟩ := p
    cases d0 with
    | const v0 =>
      rcases List.mem_cons.mp h with heq | ht
      · simp at heq
      · obtain ⟨k, hk⟩ := ih ht j
        exact ⟨k, List.mem_cons_of_mem _ hk⟩
    | grid vs0 =>
      rcases List.mem_cons.mp h with heq | ht
      · simp at heq
      · obtain ⟨k, hk⟩ := ih ht j
        exact ⟨k, List.mem_cons_of_mem _ hk⟩
    | stoch e0 =>
      rcases List.mem_cons.mp h with heq | ht
      · simp only [Prod.mk.injEq, Dim.stoch.injEq] at heq
        obtain ⟨rfl, rfl⟩ := heq
        exact ⟨j, List.mem_cons_self _ _⟩
      · obtain ⟨k, hk⟩ := ih ht (j + 1)
        exact ⟨k, List.mem_cons_of_mem _ hk⟩

theorem resolveDims_no_stoch (seed n i : Nat) (dims : List (String × Dim)) (j : Nat) :
    ∀ p ∈ resolveDims seed n i dims j, p.2.isStoch = false := by
  induction dims generalizing j with
  | nil => simp [resolveDims]
  | cons p rest ih =>
    obtain ⟨n0, d0⟩ := p
    cases d0 with
    | const v0 =>
      intro q hq
      rcases List.mem_cons.mp hq with heq | ht
      · rw [heq]
        rfl
      · exact ih _ q ht
    | grid vs0 =>
      intro q hq
      rcases List.mem_cons.mp hq with heq | ht
      · rw [heq]
        rfl
      · exact ih _ q ht
    | stoch e0 =>
      intro q hq
      rcases List.mem_cons.mp hq with heq | ht
      · rw [heq]
        rfl
      · exact ih _ q ht

theorem gridProduct_eq_spaceSize (dims : List (String × Dim)) :
    gridProduct dims = spaceSize dims := by
  induction dims with
  | nil => rfl
  | cons p rest ih =>
    obtain ⟨n0, d0⟩ := p
    cases d0 with
    | const v0 =>
      show gridProduct ((n0, Dim.const v0) :: rest) = _
      rw [spaceSize_cons]
      unfold gridProduct
      rw [List.filter_cons_of_neg (by simp [Dim.isGrid])]
      rw [show ((List.filter (fun p => p.2.isGrid) rest).map (fun p => dimSize p.2)).prod
        = gridProduct rest from rfl, ih]
      simp [dimSize]
    | grid vs0 =>
      show gridProduct ((n0, Dim.grid vs0) :: rest) = _
      rw [spaceSize_cons]
      unfold gridProduct
      rw [List.filter_cons_of_pos (by rfl)]
      rw [List.map_cons, List.prod_cons]
      rw [show ((List.filter (fun p => p.2.isGrid) rest).map (fun p => dimSize p.2)).prod
        = gridProduct rest from rfl, ih]
    | stoch e0 =>
      show gridProduct ((n0, Dim.stoch e0) :: rest) = _
      rw [spaceSize_cons]
      unfold gridProduct
      rw [List.filter_cons_of_neg (by simp [Dim.isGrid])]
      rw [show ((List.filter (fun p => p.2.isGrid) rest).map (fun p => dimSize p.2)).prod
        = gridProduct rest from rfl, ih]
      simp [dimSize]

theorem expandDims_all_const {dims : List (String × Dim)}
    (h : ∀ p ∈ dims, p.2.isConst = true) :
    expandDims dims = [dims.map (fun p => (p.1, ConfigValue.resolved p.2.constValD))] := by
  induction dims with
  | nil => simp [expandDims]
  | cons p rest ih =>
    obtain ⟨n0, d0⟩ := p
    cases d0 with
    | const v0 =>
      have ht : ∀ p ∈ rest, p.2.isConst = true :=
        fun p hp => h p (List.mem_cons_of_mem _ hp)
      simp [expandDims, ih ht, Dim.constValD]
    | grid vs0 =>
      have := h (n0, Dim.grid vs0) (List.mem_cons_self _ _)
      simp [Dim.isConst] at this
    | stoch e0 =>
      have := h (n0, Dim.stoch e0) (List.mem_cons_self _ _)
      simp [Dim.isConst] at this

theorem length_flatMap_range {α : Type} (f : Nat → List α) (P : Nat)
    (hP : ∀ i, (f i).length = P) (n : Nat) :
    ((List.range n).flatMap f).length = n * P := by
  rw [length_flatMap_const _ _ P hP, List.length_range]

theorem flatMap_range_block {α : Type} :
    ∀ (i : Nat) (f : Nat → List α) (P : Nat), (∀ k, (f k).length = P) →
      ∀ n, i < n → (((List.range n).flatMap f).drop (i * P)).take P = f i := by
  intro i
  induction i with
  | zero =>
    intro f P hP n hn
    obtain ⟨m, rfl⟩ : ∃ m, n = m + 1 := ⟨n - 1, (Nat.succ_pred_eq_of_pos hn).symm⟩
    rw [List.range_succ_eq_map]
    simp only [List.flatMap_cons, Nat.zero_mul, List.drop_zero]
    rw [← hP 0, List.take_left]
  | succ i ih =>
    intro f P hP n hn
    have hpos : 0 < n := Nat.lt_of_le_of_lt (Nat.zero_le _) hn
    obtain ⟨m, rfl⟩ : ∃ m, n = m + 1 := ⟨n - 1, (Nat.succ_pred_eq_of_pos hpos).symm⟩
    rw [List.range_succ_eq_map]
    simp only [List.flatMap_cons, List.flatMap_map]
    have harith : (i + 1) * P = (f 0).length + i * P := by
      rw [hP 0, Nat.succ_mul, Nat.add_comm]
    rw [harith, List.drop_append]
    exact ih (fun k => f (k + 1)) P (fun k => hP (k + 1)) m (Nat.lt_of_succ_lt_succ hn)


theorem flatMap_singleton_map {α β : Type} (l : List α) (f : α → β) :
    (l.flatMap fun a => [f a]) = l.map f := by
  induction l with
  | nil => rfl
  | cons a tl ih => simp [ih]

/-- C1: `Space(a=1, b=Grid(2,3), c=Grid("a","b"))` enumerates to exactly the
four configurations `{a:1,b:2,c:"a"}`, `{a:1,b:2,c:"b"}`, `{a:1,b:3,c:"a"}`,
`{a:1,b:3,c:"b"}` in that order; and in general the enumeration of a Space
with Grid dimensions is the multi-dimensional cross-product in which the
last-declared dimension varies fastest: appending a Grid as the final
dimension enumerates, for each configuration of the earlier dimensions in
order, all of that Grid's values consecutively.  Enumeration is a pure
function of the Space, so the order is identical on every enumeration. -/
theorem claim1_grid_cross_product_order :
    (Space.expand spaceGrid23 =
      [[("a", ConfigValue.resolved (Value.num 1)), ("b", ConfigValue.resolved (Value.num 2)),
        ("c", ConfigValue.resolved (Value.str "a"))],
       [("a", ConfigValue.resolved (Value.num 1)), ("b", ConfigValue.resolved (Value.num 2)),
        ("c", ConfigValue.resolved (Value.str "b"))],
       [("a", ConfigValue.resolved (Value.num 1)), ("b", ConfigValue.resolved (Value.num 3)),
        ("c", ConfigValue.resolved (Value.str "a"))],
       [("a", ConfigValue.resolved (Value.num 1)), ("b", ConfigValue.resolved (Value.num 3)),
        ("c", ConfigValue.resolved (Value.str "b"))]])
  ∧ ∀ (pre : List (String × Dim)) (name : String) (vs : List Value),
      expandDims (pre ++ [(name, Dim.grid vs)]) =
        (expandDims pre).flatMap
          (fun c => vs.map (fun v => c ++ [(name, ConfigValue.resolved v)])) := by
  constructor
  · rfl
  · intro pre name vs
    induction pre with
    | nil =>
      simp [expandDims, flatMap_singleton_map]
    | cons p rest ih =>
      obtain ⟨n0, d0⟩ := p
      cases d0 with
      | const v0 =>
        simp [expandDims, ih, List.map_flatMap, List.flatMap_map, List.map_map,
          Function.comp_def]
      | grid vs0 =>
        simp [expandDims, ih, List.map_flatMap, List.flatMap_map, List.map_map,
          List.flatMap_assoc, Function.comp_def]
      | stoch e0 =>
        simp [expandDims, ih, List.map_flatMap, List.flatMap_map, List.map_map,
          Function.comp_def]

/-- C2: for every Space composed only of Constants and Grids, the number of
enumerated configurations equals the product of the value counts of its
Grid dimensions; a Space with zero Grid and zero Stochastic dimensions
(all Constants) enumerates to exactly one configuration holding the
Constant values. -/
theorem claim2_static_space_count :
    (∀ s : Space, (∀ p ∈ s.dims, p.2.isStoch = false) →
      (Space.expand s).length = gridProduct s.dims)
  ∧ (∀ s : Space, (∀ p ∈ s.dims, p.2.isConst = true) →
      Space.expand s = [s.dims.map (fun p => (p.1, ConfigValue.resolved p.2.constValD))]) := by
  constructor
  · intro s _
    rw [Space.expand, length_expandDims, gridProduct_eq_spaceSize]
  · intro s h
    exact expandDims_all_const h

/-- Witness for C2 at the notebook's concrete Spaces. -/
theorem claim2_static_space_count_witness :
    (∀ p ∈ spaceGrid23.dims, p.2.isStoch = false) ∧
    (Space.expand spaceGrid23).length = gridProduct spaceGrid23.dims ∧
    (∀ p ∈ spaceStatic.dims, p.2.isConst = true) ∧
    Space.expand spaceStatic
      = [spaceStatic.dims.map (fun p => (p.1, ConfigValue.resolved p.2.constValD))] :=
  ⟨by decide, claim2_static_space_count.1 spaceGrid23 (by decide),
   by decide, claim2_static_space_count.2 spaceStatic (by decide)⟩


/-- C3: for every Space, `sample(n)` enumerates to exactly
(product of Grid dimension sizes) × n configurations; every configuration
belongs to one draw index `i < n` at which all stochastic dimensions carry
their draw-index-`i` value together (they are not cross-producted against
each other); and for each draw index `i` every Grid value appears in some
configuration of that draw's branch. -/
theorem claim3_sample_grid_composition :
    (∀ (s : Space) (n seed : Nat),
      (s.sampleExpand n seed).length = gridProduct s.dims * n)
  ∧ (∀ (s : Space) (n seed : Nat) (c : Config), c ∈ s.sampleExpand n seed →
      ∃ i, i < n ∧ ∀ (name : String) (e : StochExpr), (name, Dim.stoch e) ∈ s.dims →
        ∃ k, (name, ConfigValue.resolved (drawValue e (rawAt seed (k * n + i)))) ∈ c)
  ∧ (∀ (s : Space) (n seed i : Nat), i < n → gridProduct s.dims ≠ 0 →
      ∀ (name : String) (vs : List Value), (name, Dim.grid vs) ∈ s.dims → ∀ v ∈ vs,
        ∃ c, c ∈ expandDims (resolveDims seed n i s.dims 0) ∧
          (name, ConfigValue.resolved v) ∈ c ∧ c ∈ s.sampleExpand n seed) := by
  refine ⟨?_, ?_, ?_⟩
  · intro s n seed
    rw [Space.sampleExpand, length_flatMap_range _ (spaceSize s.dims)
      (fun i => by rw [length_expandDims, spaceSize_resolveDims]) n,
      gridProduct_eq_spaceSize, Nat.mul_comm]
  · intro s n seed c hc
    rw [Space.sampleExpand, List.mem_flatMap] at hc
    obtain ⟨i, hi, hci⟩ := hc
    rw [List.mem_range] at hi
    refine ⟨i, hi, ?_⟩
    intro name e he
    obtain ⟨k, hk⟩ := resolveDims_stoch_mem he seed n i 0
    exact ⟨k, mem_expandDims_const hci hk⟩
  · intro s n seed i hi hgp name vs hg v hv
    have hsz : spaceSize (resolveDims seed n i s.dims 0) ≠ 0 := by
      rw [spaceSize_resolveDims, ← gridProduct_eq_spaceSize]
      exact hgp
    obtain ⟨c, hc, hvc⟩ := expandDims_grid_cover (resolveDims_grid_mem hg seed n i 0) hv hsz
    refine ⟨c, hc, hvc, ?_⟩
    rw [Space.sampleExpand, List.mem_flatMap]
    exact ⟨i, List.mem_range.mpr hi, hc⟩

/-- Witness for C3 at the notebook's `Space(a=1, b=Grid(1,2), c=Rand(0,1)).sample(3)`. -/
theorem claim3_sample_grid_composition_witness :
    ((spaceGridRand.sampleExpand 3 7).length = gridProduct spaceGridRand.dims * 3)
  ∧ (cfgGR0 ∈ spaceGridRand.sampleExpand 3 7
      ∧ ∃ i, i < 3 ∧ ∀ (name : String) (e : StochExpr),
          (name, Dim.stoch e) ∈ spaceGridRand.dims →
          ∃ k, (name, ConfigValue.resolved (drawValue e (rawAt 7 (k * 3 + i)))) ∈ cfgGR0)
  ∧ ((0 : Nat) < 3 ∧ gridProduct spaceGridRand.dims ≠ 0
      ∧ ∃ c, c ∈ expandDims (resolveDims 7 3 0 spaceGridRand.dims 0) ∧
          ("b", ConfigValue.resolved (Value.num 1)) ∈ c ∧
          c ∈ spaceGridRand.sampleExpand 3 7) :=
  ⟨claim3_sample_grid_composition.1 spaceGridRand 3 7,
   ⟨List.mem_cons_self _ _,
    claim3_sample_grid_composition.2.1 spaceGridRand 3 7 cfgGR0 (List.mem_cons_self _ _)⟩,
   ⟨by decide, by decide,
    claim3_sample_grid_composition.2.2 spaceGridRand 3 7 0 (by decide) (by decide)
      "b" [Value.num 1, Value.num 2] (by decide) (Value.num 1) (by decide)⟩⟩

/-- C4: enumerating a Space without any `sample()` call yields exactly one
configuration per Grid cross-product point, in which every stochastic
dimension remains the unresolved placeholder carrying its defining
parameters, never a concrete drawn value; for the notebook's
`Space(a=1, b=Rand(0,1), c=Choice("a","b"))` this is exactly one
configuration whose `b` and `c` are the placeholder objects. -/
theorem claim4_unsampled_placeholders :
    (Space.expand spaceRandChoice = [cfgRC])
  ∧ (∀ s : Space, (Space.expand s).length = spaceSize s.dims)
  ∧ (∀ (s : Space) (c : Config), c ∈ Space.expand s →
      ∀ (name : String) (e : StochExpr), (name, Dim.stoch e) ∈ s.dims →
        (name, ConfigValue.unresolved e) ∈ c) := by
  refine ⟨rfl, fun s => length_expandDims s.dims, ?_⟩
  intro s c hc name e he
  exact mem_expandDims_stoch hc he

/-- Witness for C4 at the notebook's unsampled Space. -/
theorem claim4_unsampled_placeholders_witness :
    cfgRC ∈ Space.expand spaceRandChoice ∧
    ("b", ConfigValue.unresolved rand01) ∈ cfgRC ∧
    ("c", ConfigValue.unresolved choiceAB) ∈ cfgRC :=
  ⟨by decide,
   claim4_unsampled_placeholders.2.2 spaceRandChoice cfgRC (by decide) "b" rand01 (by decide),
   claim4_unsampled_placeholders.2.2 spaceRandChoice cfgRC (by decide) "c" choiceAB (by decide)⟩

/-- C5: sampling is deterministic in the seed: `sample(n, seed)` on two
equivalently-declared Spaces produces identical sequences of concrete
values (the generator stream is a pure function of the seed, so no state
is reused from a previous call), and on a Space with no Grid dimensions it
yields exactly `n` configurations. -/
theorem claim5_seeded_determinism :
    (∀ (s1 s2 : Space) (n seed : Nat), s1.dims = s2.dims →
      s1.sampleExpand n seed = s2.sampleExpand n seed)
  ∧ (∀ (s : Space) (n seed : Nat), gridProduct s.dims = 1 →
      (s.sampleExpand n seed).length = n) := by
  constructor
  · intro s1 s2 n seed h
    rw [Space.sampleExpand, Space.sampleExpand, h]
  · intro s n seed h
    rw [Space.sampleExpand, length_flatMap_range _ (spaceSize s.dims)
      (fun i => by rw [length_expandDims, spaceSize_resolveDims]) n,
      ← gridProduct_eq_spaceSize, h, Nat.mul_one]

/-- Witness for C5: the notebook's `Space(a=1, b=Rand(0,1), c=Choice("a","b"))`
declared twice, sampled with `n = 3`, `seed = 10`. -/
theorem claim5_seeded_determinism_witness :
    spaceRandChoice.dims = spaceRandChoiceAgain.dims ∧
    spaceRandChoice.sampleExpand 3 10 = spaceRandChoiceAgain.sampleExpand 3 10 ∧
    gridProduct spaceRandChoice.dims = 1 ∧
    (spaceRandChoice.sampleExpand 3 10).length = 3 :=
  ⟨by decide,
   claim5_seeded_determinism.1 spaceRandChoice spaceRandChoiceAgain 3 10 (by decide),
   by decide,
   claim5_seeded_determinism.2 spaceRandChoice 3 10 (by decide)⟩


/-- C6: composing Spaces (`space1 + space2 + …`) enumerates to the
concatenation, not the cross-product, of the branches' expansions, so the
total configuration count is the sum of the branch counts; at the
notebook's three branches the counts are 2, 2 and 1, totalling 5. -/
theorem claim6_union_concatenation :
    (∀ branches : List Branch,
      unionExpand branches = (branches.map Branch.expand).flatten)
  ∧ (∀ branches : List Branch,
      (unionExpand branches).length
        = (branches.map (fun b => (Branch.expand b).length)).sum)
  ∧ (Space.expand space1).length = 2
  ∧ (space2.sampleExpand 2 7).length = 2
  ∧ (Space.expand space3).length = 1
  ∧ (unionExpand
      [Branch.plain space1, Branch.sampled space2 2 7, Branch.plain space3]).length = 5 := by
  refine ⟨fun bs => List.flatMap_def bs Branch.expand, fun bs => ?_, by decide, by decide,
    by decide, by decide⟩
  induction bs with
  | nil => rfl
  | cons b tl ih =>
    show ((b :: tl).flatMap Branch.expand).length = _
    rw [List.flatMap_cons, List.length_append, List.map_cons, List.sum_cons,
      show tl.flatMap Branch.expand = unionExpand tl from rfl, ih]

/-- C7: constructing `Rand` or `RandInt` with `low > high` fails with
`InvalidRangeError`, and constructing `Choice` with no options fails with
`EmptyChoiceError`; the failure is at construction time, before any
configuration can be produced (no `StochExpr` value exists to put in a
Space).  In particular `Rand(5, 1)` and `Choice()` fail so. -/
theorem claim7_construction_errors :
    (∀ (low high : ℚ) (q : Option ℚ) (lg ih : Bool), high < low →
      mkRand low high q lg ih = Except.error SpaceError.invalidRange)
  ∧ (∀ (low high : Int) (ih : Bool), high < low →
      mkRandInt low high ih = Except.error SpaceError.invalidRange)
  ∧ mkRand 5 1 none false true = Except.error SpaceError.invalidRange
  ∧ mkChoice [] = Except.error SpaceError.emptyChoice := by
  refine ⟨?_, ?_, ?_, rfl⟩
  · intro low high q lg ih h
    rw [mkRand, if_pos h]
  · intro low high ih h
    rw [mkRandInt, if_pos h]
  · rw [mkRand, if_pos (by norm_num)]

/-- Witness for C7 at the spec's concrete error inputs. -/
theorem claim7_construction_errors_witness :
    (1 : ℚ) < 5 ∧
    mkRand 5 1 none false true = Except.error SpaceError.invalidRange ∧
    (1 : Int) < 5 ∧
    mkRandInt 5 1 true = Except.error SpaceError.invalidRange :=
  ⟨by norm_num, claim7_construction_errors.1 5 1 none false true (by norm_num),
   by norm_num, claim7_construction_errors.2.1 5 1 true (by norm_num)⟩

/-- C8: enumeration is a pure, read-only function of the declared Space, so
enumerating the same (unmodified, no sampling) Space twice produces
structurally identical sequences; the notebook declares
`Space(a=1, b=Rand(0,1), c=Choice("a","b"))` twice and records the same
single-configuration output both times. -/
theorem claim8_enumeration_idempotent :
    (∀ s1 s2 : Space, s1.dims = s2.dims → Space.expand s1 = Space.expand s2)
  ∧ Space.expand spaceRandChoice = Space.expand spaceRandChoiceAgain := by
  constructor
  · intro s1 s2 h
    rw [Space.expand, Space.expand, h]
  · rfl

/-- Witness for C8 at the notebook's twice-declared Space. -/
theorem claim8_enumeration_idempotent_witness :
    spaceRandChoice.dims = spaceRandChoiceAgain.dims ∧
    Space.expand spaceRandChoice = Space.expand spaceRandChoiceAgain :=
  ⟨by decide,
   claim8_enumeration_idempotent.1 spaceRandChoice spaceRandChoiceAgain (by decide)⟩

/-- C9: when Grid dimensions are combined with `sample(n)`, the draw index
is the outermost (slowest-varying) loop and the Grid dimensions the inner
loops regardless of declaration positions: the block of configurations with
draw index `i` occupies positions `i·P … i·P+P-1` (`P` the Grid product),
and `Space(a=1, b=Grid(1,2), c=Rand(0,1)).sample(3)` enumerates with the
last-declared `c` varying slowest, `b` fastest. -/
theorem claim9_sample_index_outermost :
    (spaceGridRand.sampleExpand 3 7 =
      [[("a", ConfigValue.resolved (Value.num 1)), ("b", ConfigValue.resolved (Value.num 1)),
        ("c", ConfigValue.resolved (drawValue rand01 (rawAt 7 0)))],
       [("a", ConfigValue.resolved (Value.num 1)), ("b", ConfigValue.resolved (Value.num 2)),
        ("c", ConfigValue.resolved (drawValue rand01 (rawAt 7 0)))],
       [("a", ConfigValue.resolved (Value.num 1)), ("b", ConfigValue.resolved (Value.num 1)),
        ("c", ConfigValue.resolved (drawValue rand01 (rawAt 7 1)))],
       [("a", ConfigValue.resolved (Value.num 1)), ("b", ConfigValue.resolved (Value.num 2)),
        ("c", ConfigValue.resolved (drawValue rand01 (rawAt 7 1)))],
       [("a", ConfigValue.resolved (Value.num 1)), ("b", ConfigValue.resolved (Value.num 1)),
        ("c", ConfigValue.resolved (drawValue rand01 (rawAt 7 2)))],
       [("a", ConfigValue.resolved (Value.num 1)), ("b", ConfigValue.resolved (Value.num 2)),
        ("c", ConfigValue.resolved (drawValue rand01 (rawAt 7 2)))]])
  ∧ (∀ (s : Space) (n seed i : Nat), i < n →
      (((s.sampleExpand n seed).drop (i * spaceSize s.dims)).take (spaceSize s.dims))
        = expandDims (resolveDims seed n i s.dims 0)) := by
  constructor
  · rfl
  · intro s n seed i hi
    rw [Space.sampleExpand]
    exact flatMap_range_block i _ (spaceSize s.dims)
      (fun k => by rw [length_expandDims, spaceSize_resolveDims]) n hi

/-- Witness for C9 at draw index 1 of the notebook's sampled Space. -/
theorem claim9_sample_index_outermost_witness :
    (1 : Nat) < 3 ∧
    (((spaceGridRand.sampleExpand 3 7).drop (1 * spaceSize spaceGridRand.dims)).take
        (spaceSize spaceGridRand.dims))
      = expandDims (resolveDims 7 3 1 spaceGridRand.dims 0) :=
  ⟨by decide, claim9_sample_index_outermost.2 spaceGridRand 3 7 1 (by decide)⟩

/-- C10: every configuration produced by enumerating a Space (plain or
sampled) carries exactly the Space's declared parameter names, in
declaration order, and maps every Constant dimension to its unchanged
value. -/
theorem claim10_configuration_key_set :
    (∀ (s : Space) (c : Config), c ∈ Space.expand s →
      c.map Prod.fst = s.dims.map Prod.fst ∧
      ∀ (name : String) (v : Value), (name, Dim.const v) ∈ s.dims →
        (name, ConfigValue.resolved v) ∈ c)
  ∧ (∀ (s : Space) (n seed : Nat) (c : Config), c ∈ s.sampleExpand n seed →
      c.map Prod.fst = s.dims.map Prod.fst ∧
      ∀ (name : String) (v : Value), (name, Dim.const v) ∈ s.dims →
        (name, ConfigValue.resolved v) ∈ c) := by
  constructor
  · intro s c hc
    exact ⟨keys_of_mem_expandDims hc, fun name v hv => mem_expandDims_const hc hv⟩
  · intro s n seed c hc
    rw [Space.sampleExpand, List.mem_flatMap] at hc
    obtain ⟨i, hi, hci⟩ := hc
    constructor
    · rw [keys_of_mem_expandDims hci, resolveDims_map_fst]
    · intro name v hv
      exact mem_expandDims_const hci (resolveDims_const_mem hv seed n i 0)

/-- Witness for C10 at the first configuration of the notebook's Grid
Space. -/
theorem claim10_configuration_key_set_witness :
    cfg23a ∈ Space.expand spaceGrid23 ∧
    cfg23a.map Prod.fst = spaceGrid23.dims.map Prod.fst ∧
    ("a", ConfigValue.resolved (Value.num 1)) ∈ cfg23a :=
  ⟨by decide,
   (claim10_configuration_key_set.1 spaceGrid23 cfg23a (by decide)).1,
   (claim10_configuration_key_set.1 spaceGrid23 cfg23a (by decide)).2 "a" (Value.num 1)
     (by decide)⟩

end SearchSpace
